import Mathlib

/-!
Verification of the face-recognition login pipeline (enrollment, training,
per-frame recognition) against its specification.

The development shallowly embeds the three source modules:

* `login.py` — per-frame recognition and Status aggregation
  (`FaceLoginApp.update_frame`), embedded as `FR.stepFace` /
  `FR.update_frame_status`;
* `recog.py` — the training pipeline (`train_model`), embedded as
  `FR.collect` / `FR.train_model`;
* `dataset.py` — enrollment (`create_dataset`), embedded as
  `FR.captureLoop` / `FR.create_dataset`.

External collaborators (the face detector, the LBPH classifier, the camera)
are modelled as inputs: detection results, prediction results and frame
streams are parameters of the embedded functions.
-/

namespace FR

/-! Embedding of `login.py` (recognition engine). -/

/-- The LBPH confidence threshold from `login.py`: `CONF_THRESHOLD = 65`.
Lower scores are better (the score is a dissimilarity). Scores are modelled
as rationals. -/
def CONF_THRESHOLD : ℚ := 65

/-- The result of `recognizer.predict` on one detected face region: a numeric
label `id_num` and a dissimilarity score `confidence`. -/
structure Prediction where
  id_num : Nat
  confidence : ℚ
deriving DecidableEq

/-- The frame-level aggregation state of `update_frame`: the variables
`logged_in_name`, `status_text` and `status_color` as they evolve over the
detected faces of one frame. -/
structure FrameStatus where
  logged_in_name : Option String
  status_text : String
  status_color : String
deriving DecidableEq

/-- The per-region overlay drawn by `update_frame`: the `text` put next to the
rectangle and the rectangle `color` (a BGR triple). -/
structure RegionVerdict where
  text : String
  color : Nat × Nat × Nat
deriving DecidableEq

/-- The state at the start of `update_frame` for each frame:
`logged_in_name = None`, `status_text = "Scanning for face..."`,
`status_color = "black"`. -/
def initialStatus : FrameStatus where
  logged_in_name := none
  status_text := "Scanning for face..."
  status_color := "black"

/-- `self.id_to_name.get(id_num, "Unknown")`: reverse-registry lookup with the
literal fallback. -/
def idToNameGet (m : List (Nat × String)) (k : Nat) : String :=
  (m.lookup k).getD ("Unknown")

/-- The body of the `for (x, y, w, h) in faces` loop of `update_frame` for one
region, given the current aggregation state and the classifier's prediction.
Returns the new aggregation state and the region's overlay verdict. -/
def stepFace (m : List (Nat × String)) (st : FrameStatus) (p : Prediction) :
    FrameStatus × RegionVerdict :=
  if p.confidence < CONF_THRESHOLD then
    let name := idToNameGet m p.id_num
    ({ logged_in_name := some name
       status_text := ("Welcome, " ++ name) ++ "!"
       status_color := "green" },
     { text := "Logged In: " ++ name, color := (0, 255, 0) })
  else
    (if st.logged_in_name = none then
      { st with status_text := "Login Failed", status_color := "red" }
     else st,
     { text := "Login Failed", color := (0, 0, 255) })

/-- The aggregation-state component of one loop iteration of `update_frame`. -/
def statusStep (m : List (Nat × String)) (st : FrameStatus) (p : Prediction) :
    FrameStatus :=
  (stepFace m st p).1

/-- The frame-level Status computed by `update_frame` from the predictions of
all detected regions, in detection order. -/
def update_frame_status (m : List (Nat × String)) (preds : List Prediction) :
    FrameStatus :=
  preds.foldl (statusStep m) initialStatus

/-- The acceptance condition of the per-region branch of `update_frame`:
`confidence < CONF_THRESHOLD`. -/
def acceptedB (p : Prediction) : Bool :=
  decide (p.confidence < CONF_THRESHOLD)

/-- The aggregation state right after an accepted region naming `name`. -/
def welcomeStatus (name : String) : FrameStatus where
  logged_in_name := some name
  status_text := ("Welcome, " ++ name) ++ "!"
  status_color := "green"

/-! Embedding of `recog.py` (training pipeline). -/

/-- A grayscale face image, abstracted to an opaque identifier (training never
inspects pixel contents). -/
abbrev Image := Nat

/-- One file inside an identity partition: its name, and the decoded grayscale
image when `cv2.imread` can read it (`none` models an unreadable file, which
training skips with a warning). -/
structure FileEntry where
  name : String
  content : Option Image
deriving DecidableEq

/-- One entry of the dataset directory listing, as seen by `os.listdir`:
either an identity partition (a subdirectory, with its own file listing) or a
non-directory entry, which `train_model` skips. -/
inductive Entry where
  | dir (name : String) (files : List FileEntry)
  | file (name : String)
deriving DecidableEq

/-- The partition name of a directory entry, `none` for non-directories. -/
def Entry.dirName? : Entry → Option String
  | .dir n _ => some n
  | .file _ => none

/-- The identity partition names of a dataset listing, in discovery order. -/
def dirNames (entries : List Entry) : List String :=
  entries.filterMap Entry.dirName?

/-- Python's `str.endswith`, as a suffix test on the character sequence. -/
def strEndsWith (s suffix : String) : Bool :=
  suffix.data.isSuffixOf s.data

/-- The extension filter of `train_model`:
`img_name.endswith(('.jpg', '.png', '.jpeg'))`. -/
def isImageFile (name : String) : Bool :=
  strEndsWith name (".jpg") || strEndsWith name (".png") ||
    strEndsWith name (".jpeg")

/-- The accumulator state of `train_model`'s directory walk: the `faces` and
`ids` lists, the `name_to_id` dictionary (an insertion-ordered association
list, as a Python dict preserves insertion order) and the `current_id`
counter. -/
structure TrainState where
  faces : List Image
  ids : List Nat
  name_to_id : List (String × Nat)
  current_id : Nat
deriving DecidableEq

/-- The state at the start of `train_model`:
`faces = []`, `ids = []`, `name_to_id = {}`, `current_id = 0`. -/
def initState : TrainState where
  faces := []
  ids := []
  name_to_id := []
  current_id := 0

/-- Lookup in the `name_to_id` dictionary (`dir_name in name_to_id` /
`name_to_id[dir_name]`). -/
def dictGet (d : List (String × Nat)) (key : String) : Option Nat :=
  match d with
  | [] => none
  | (k, v) :: rest => if k = key then some v else dictGet rest key

/-- The body of the inner `for img_name in os.listdir(user_path)` loop of
`train_model`: skip non-image extensions, skip unreadable files, otherwise
append the image to `faces` and the user's id to `ids`. -/
def addSample (uid : Nat) (st : TrainState) (f : FileEntry) : TrainState :=
  if isImageFile f.name then
    match f.content with
    | none => st
    | some img => { st with faces := st.faces ++ [img], ids := st.ids ++ [uid] }
  else st

/-- The id-assignment step of `train_model` for one partition name:
`if dir_name not in name_to_id` assign `current_id`, record it and bump the
counter, `else` reuse the recorded id. Returns the user's id and the updated
state. -/
def assignId (s : TrainState) (name : String) : Nat × TrainState :=
  match dictGet s.name_to_id name with
  | some v => (v, s)
  | none => (s.current_id,
      { s with name_to_id := s.name_to_id ++ [(name, s.current_id)],
               current_id := s.current_id + 1 })

/-- The directory walk of `train_model` over the dataset listing: for each
subdirectory, assign an id with `assignId`, then fold the partition's files
with `addSample`. Non-directory entries are skipped. -/
def collect (entries : List Entry) (s : TrainState) : TrainState :=
  match entries with
  | [] => s
  | .file _ :: rest => collect rest s
  | .dir name files :: rest =>
    collect rest (files.foldl (addSample (assignId s name).1) (assignId s name).2)

/-- The outcome of `train_model`. The three failure paths return without
writing anything; on success both the model artifact and the name mapping are
written. `Model` is the opaque artifact type of the classification adapter. -/
inductive TrainResult (Model : Type) where
  | noDataset
  | noFaces
  | adapterError
  | success (model : Model) (mapping : List (String × Nat))
deriving DecidableEq

/-- `train_model` of `recog.py`. The dataset directory is `none` when absent,
otherwise its listing; `adapterTrain` models `recognizer.train` (returning
`none` when the underlying `cv2` training call raises). -/
def train_model {Model : Type} (dataset : Option (List Entry))
    (adapterTrain : List Image → List Nat → Option Model) : TrainResult Model :=
  match dataset with
  | none => .noDataset
  | some entries =>
    let s := collect entries initState
    if s.faces = [] then .noFaces
    else
      match adapterTrain s.faces s.ids with
      | none => .adapterError
      | some m => .success m s.name_to_id

/-- The model artifact persisted by a run of `train_model`
(`recognizer.write(MODEL_PATH)`), `none` when the run wrote nothing. -/
def writtenModel {Model : Type} : TrainResult Model → Option Model
  | .success m _ => some m
  | _ => none

/-- The name mapping persisted by a run of `train_model`
(`json.dump(name_to_id, f)`), `none` when the run wrote nothing. -/
def writtenMapping {Model : Type} : TrainResult Model → Option (List (String × Nat))
  | .success _ mp => some mp
  | _ => none

/-! Embedding of `dataset.py` (enrollment). -/

/-- A detected face region's cropped matrix, abstracted to its pixel count
(`face_roi.size`). -/
structure Face where
  size : Nat
deriving DecidableEq

/-- The enrollment target sample count of `dataset.py`:
`IMAGES_TO_CAPTURE = 50`. -/
def IMAGES_TO_CAPTURE : Nat := 50

/-- The inner `for (x, y, w, h) in faces` loop of `create_dataset` for one
frame: every detected region whose crop is non-empty (`face_roi.size > 0`)
is saved and bumps `count`, with no re-check of the target in between. -/
def processFrameFaces (count : Nat) (faces : List Face) : Nat :=
  faces.foldl (fun c f => if 0 < f.size then c + 1 else c) count

/-- The `while count < IMAGES_TO_CAPTURE` capture loop of `create_dataset`
over a stream of frames; each stream element is `none` for a failed read
(`ret == False`, which breaks the loop) or the detector's face list for that
frame. Returns the final `count`. -/
def captureLoop (target : Nat) : List (Option (List Face)) → Nat → Nat
  | [], count => count
  | f :: rest, count =>
    if count < target then
      match f with
      | none => count
      | some faces => captureLoop target rest (processFrameFaces count faces)
    else count

/-- The observable side effects of one `create_dataset` run: the identity
partitions created (`os.makedirs`), whether the webcam was opened, and how
many samples were written (`cv2.imwrite`). -/
structure EnrollResult where
  partitionsCreated : List String
  cameraOpened : Bool
  samplesStored : Nat
deriving DecidableEq

/-- `create_dataset` of `dataset.py`. `user_name` is the entered name;
`cascadeOk` models whether loading the Haar cascade raises; `cameraOk` models
`cap.isOpened()`; `frames` is the stream delivered by `cap.read` plus
detection. -/
def create_dataset (user_name : String) (cascadeOk cameraOk : Bool)
    (frames : List (Option (List Face))) : EnrollResult :=
  if user_name = "" then
    { partitionsCreated := [], cameraOpened := false, samplesStored := 0 }
  else if cascadeOk = false then
    { partitionsCreated := [user_name], cameraOpened := false, samplesStored := 0 }
  else if cameraOk = false then
    { partitionsCreated := [user_name], cameraOpened := false, samplesStored := 0 }
  else
    { partitionsCreated := [user_name], cameraOpened := true,
      samplesStored := captureLoop IMAGES_TO_CAPTURE frames 0 }

end FR

namespace FR

theorem statusStep_accepted (m : List (Nat × String)) (st : FrameStatus)
    (p : Prediction) (h : p.confidence < CONF_THRESHOLD) :
    statusStep m st p = welcomeStatus (idToNameGet m p.id_num) := by
  simp [statusStep, stepFace, h, welcomeStatus]

theorem statusStep_rejected_logged (m : List (Nat × String)) (st : FrameStatus)
    (p : Prediction) (h : ¬ p.confidence < CONF_THRESHOLD)
    (hlog : st.logged_in_name ≠ none) :
    statusStep m st p = st := by
  simp [statusStep, stepFace, h, hlog]

theorem foldl_statusStep_no_accept_logged (m : List (Nat × String)) :
    ∀ (preds : List Prediction) (st : FrameStatus),
      preds.filter acceptedB = [] → st.logged_in_name ≠ none →
      preds.foldl (statusStep m) st = st := by
  intro preds
  induction preds with
  | nil => intro st _ _; rfl
  | cons q rest ih =>
    intro st hfil hlog
    rw [List.filter_cons] at hfil
    by_cases hq : acceptedB q = true
    · rw [if_pos hq] at hfil
      exact absurd hfil (by simp)
    · rw [if_neg hq] at hfil
      have hq' : ¬ q.confidence < CONF_THRESHOLD := by
        simpa [acceptedB] using hq
      rw [List.foldl_cons, statusStep_rejected_logged m st q hq' hlog]
      exact ih st hfil hlog

theorem foldl_statusStep_last_accept (m : List (Nat × String)) :
    ∀ (preds : List Prediction) (st : FrameStatus) (p : Prediction),
      (preds.filter acceptedB).getLast? = some p →
      preds.foldl (statusStep m) st = welcomeStatus (idToNameGet m p.id_num) := by
  intro preds
  induction preds with
  | nil => intro st p h; simp at h
  | cons q rest ih =>
    intro st p h
    rw [List.filter_cons] at h
    by_cases hq : acceptedB q = true
    · have hq' : q.confidence < CONF_THRESHOLD := by
        simpa [acceptedB] using hq
      rcases hrest : rest.filter acceptedB with _ | ⟨r, rs⟩
      · rw [if_pos hq, hrest] at h
        have hpq : q = p := by simpa using h
        subst hpq
        rw [List.foldl_cons, statusStep_accepted m st q hq']
        exact foldl_statusStep_no_accept_logged m rest
          (welcomeStatus (idToNameGet m q.id_num)) hrest (by simp [welcomeStatus])
      · have h' : (rest.filter acceptedB).getLast? = some p := by
          rw [if_pos hq, hrest, List.getLast?_cons_cons] at h
          rw [hrest]
          exact h
        rw [List.foldl_cons]
        exact ih (statusStep m st q) p h'
    · rw [if_neg hq] at h
      rw [List.foldl_cons]
      exact ih (statusStep m st q) p h

/-- C1 (counterexample): with verdicts [reject, accept(Alice), accept(Bob)] in
that order, the frame Status reads "Welcome, Bob!", not "Welcome, Alice!":
the FIRST accepted verdict does not fix the Status. -/
theorem first_accept_not_kept_counterexample :
    (update_frame_status [(0, "Alice"), (1, "Bob")]
        [⟨0, 100⟩, ⟨0, 0⟩, ⟨1, 0⟩]).status_text = "Welcome, Bob!" ∧
    (update_frame_status [(0, "Alice"), (1, "Bob")]
        [⟨0, 100⟩, ⟨0, 0⟩, ⟨1, 0⟩]).status_text ≠ "Welcome, Alice!" := by
  constructor
  · rfl
  · decide

/-- C1 (amended): frame Status aggregation follows last-acceptance-wins: every
accepted verdict overwrites Status with "Welcome, <identity>!" for its own
identity, and no rejected verdict after an acceptance changes Status, so the
LAST accepted verdict of the frame determines the identity shown. -/
theorem status_last_acceptance_wins (m : List (Nat × String))
    (preds : List Prediction) (p : Prediction)
    (h : (preds.filter acceptedB).getLast? = some p) :
    update_frame_status m preds = welcomeStatus (idToNameGet m p.id_num) :=
  foldl_statusStep_last_accept m preds initialStatus p h

/-- C1 witness: on the verdicts [reject, accept(Alice), accept(Bob)] the
amended rule yields the Status of the last accepted identity, Bob. -/
theorem status_last_acceptance_wins_witness :
    update_frame_status [(0, "Alice"), (1, "Bob")] [⟨0, 100⟩, ⟨0, 0⟩, ⟨1, 0⟩] =
      welcomeStatus ("Bob") := by
  have h := status_last_acceptance_wins [(0, "Alice"), (1, "Bob")]
    [⟨0, 100⟩, ⟨0, 0⟩, ⟨1, 0⟩] ⟨1, 0⟩ (by decide)
  simpa [idToNameGet] using h

/-- C3: a region's verdict is accept (green rectangle, "Logged In" overlay)
iff its dissimilarity score is strictly below `CONF_THRESHOLD`; a score
exactly equal to the threshold is rejected. -/
theorem region_decision_strict (m : List (Nat × String)) (st : FrameStatus)
    (p : Prediction) :
    ((stepFace m st p).2.color = (0, 255, 0) ↔
        p.confidence < CONF_THRESHOLD) ∧
    (p.confidence = CONF_THRESHOLD →
        (stepFace m st p).2 = { text := "Login Failed", color := (0, 0, 255) }) := by
  constructor
  · by_cases h : p.confidence < CONF_THRESHOLD
    · simp [stepFace, h]
    · simp [stepFace, h]
  · intro he
    have h : ¬ p.confidence < CONF_THRESHOLD := by rw [he]; exact lt_irrefl _
    simp [stepFace, h]

/-- C3 witness: a prediction scoring exactly 65 (= the threshold) is rejected. -/
theorem region_decision_strict_witness :
    (stepFace [] initialStatus ⟨0, 65⟩).2 =
      { text := "Login Failed", color := (0, 0, 255) } :=
  (region_decision_strict [] initialStatus ⟨0, 65⟩).2 rfl

theorem foldl_statusStep_no_accept_unlogged (m : List (Nat × String)) :
    ∀ (preds : List Prediction) (st : FrameStatus),
      preds.filter acceptedB = [] → st.logged_in_name = none → preds ≠ [] →
      preds.foldl (statusStep m) st =
        { logged_in_name := none, status_text := "Login Failed",
          status_color := "red" } := by
  intro preds
  induction preds with
  | nil => intro st _ _ hne; exact absurd rfl hne
  | cons q rest ih =>
    intro st hfil hlog _
    rw [List.filter_cons] at hfil
    by_cases hq : acceptedB q
    · simp [hq] at hfil
    · have hq' : ¬ q.confidence < CONF_THRESHOLD := by
        simpa [acceptedB] using hq
      simp only [hq, Bool.false_eq_true, if_neg, not_false_eq_true] at hfil
      have hstep : statusStep m st q =
          { logged_in_name := none, status_text := "Login Failed",
            status_color := "red" } := by
        obtain ⟨ln, t, c⟩ := st
        simp only at hlog
        subst hlog
        simp [statusStep, stepFace, hq']
      rw [List.foldl_cons, hstep]
      rcases rest with _ | ⟨r, rs⟩
      · rfl
      · exact ih _ hfil rfl (by simp)

/-- C5: in a frame where no verdict is accepted, the Status is "Login Failed"
when at least one region was detected (and hence rejected), and stays at the
initial "Scanning for face..." when no region was detected. -/
theorem frame_status_default_and_failure (m : List (Nat × String))
    (preds : List Prediction)
    (hall : ∀ p ∈ preds, ¬ p.confidence < CONF_THRESHOLD) :
    update_frame_status m preds =
      if preds.isEmpty then
        { logged_in_name := none, status_text := "Scanning for face...",
          status_color := "black" }
      else
        { logged_in_name := none, status_text := "Login Failed",
          status_color := "red" } := by
  rcases preds with _ | ⟨q, rest⟩
  · rfl
  · have hfil : (q :: rest).filter acceptedB = [] := by
      rw [List.filter_eq_nil_iff]
      intro p hp
      simpa [acceptedB] using hall p hp
    simp only [List.isEmpty_cons, if_neg, Bool.false_eq_true, not_false_eq_true]
    exact foldl_statusStep_no_accept_unlogged m (q :: rest) initialStatus hfil
      rfl (by simp)

/-- C5 witness: two rejected regions yield "Login Failed"; zero regions leave
the Status at "Scanning for face...". -/
theorem frame_status_default_and_failure_witness :
    update_frame_status [] [⟨0, 100⟩, ⟨1, 100⟩] =
      { logged_in_name := none, status_text := "Login Failed",
        status_color := "red" } ∧
    update_frame_status [] [] =
      { logged_in_name := none, status_text := "Scanning for face...",
        status_color := "black" } := by
  constructor
  · have h := frame_status_default_and_failure [] [⟨0, 100⟩, ⟨1, 100⟩]
      (by decide)
    simpa using h
  · have h := frame_status_default_and_failure [] [] (by decide)
    simpa using h

theorem dictGet_append (a b : List (String × Nat)) (k : String) :
    dictGet (a ++ b) k =
      match dictGet a k with
      | some v => some v
      | none => dictGet b k := by
  induction a with
  | nil => simp [dictGet]
  | cons p rest ih =>
    obtain ⟨pk, pv⟩ := p
    by_cases h : pk = k
    · simp [dictGet, h]
    · simp [dictGet, h, ih]

theorem dictGet_mem :
    ∀ (d : List (String × Nat)) (k : String) (v : Nat),
      dictGet d k = some v → (k, v) ∈ d := by
  intro d
  induction d with
  | nil => intro k v h; exact absurd h (by simp [dictGet])
  | cons p rest ih =>
    intro k v h
    obtain ⟨pk, pv⟩ := p
    by_cases hk : pk = k
    · simp only [dictGet, if_pos hk, Option.some_inj] at h
      subst hk
      subst h
      exact List.mem_cons_self _ _
    · simp only [dictGet, if_neg hk] at h
      exact List.mem_cons_of_mem _ (ih k v h)

theorem assignId_of_none (s : TrainState) (name : String)
    (h : dictGet s.name_to_id name = none) :
    assignId s name = (s.current_id,
      { s with name_to_id := s.name_to_id ++ [(name, s.current_id)],
               current_id := s.current_id + 1 }) := by
  simp [assignId, h]

theorem assignId_of_some (s : TrainState) (name : String) (v : Nat)
    (h : dictGet s.name_to_id name = some v) :
    assignId s name = (v, s) := by
  simp [assignId, h]

theorem collect_cons_file (n : String) (rest : List Entry) (s : TrainState) :
    collect (Entry.file n :: rest) s = collect rest s := rfl

theorem collect_cons_dir (name : String) (files : List FileEntry)
    (rest : List Entry) (s : TrainState) :
    collect (Entry.dir name files :: rest) s =
      collect rest
        (files.foldl (addSample (assignId s name).1) (assignId s name).2) := rfl

theorem foldl_addSample_spec (uid : Nat) :
    ∀ (files : List FileEntry) (st : TrainState),
      ∃ imgs : List Image,
        files.foldl (addSample uid) st =
          { faces := st.faces ++ imgs,
            ids := st.ids ++ List.replicate imgs.length uid,
            name_to_id := st.name_to_id,
            current_id := st.current_id } := by
  intro files
  induction files with
  | nil =>
    intro st
    exact ⟨[], by simp⟩
  | cons f rest ih =>
    intro st
    rw [List.foldl_cons]
    rcases hc : f.content with _ | img
    · have hstep : addSample uid st f = st := by
        unfold addSample
        rw [hc]
        by_cases hext : isImageFile f.name = true
        · rw [if_pos hext]
        · rw [if_neg hext]
      rw [hstep]
      exact ih st
    · by_cases hext : isImageFile f.name = true
      · have hstep : addSample uid st f =
            { st with faces := st.faces ++ [img], ids := st.ids ++ [uid] } := by
          unfold addSample
          rw [hc, if_pos hext]
        rw [hstep]
        obtain ⟨imgs, hrec⟩ :=
          ih { st with faces := st.faces ++ [img], ids := st.ids ++ [uid] }
        refine ⟨img :: imgs, ?_⟩
        rw [hrec]
        simp [List.append_assoc, List.replicate_succ]
      · have hstep : addSample uid st f = st := by
          unfold addSample
          rw [if_neg hext]
        rw [hstep]
        exact ih st

theorem dirNames_cons_file (n : String) (rest : List Entry) :
    dirNames (Entry.file n :: rest) = dirNames rest := by
  simp [dirNames, Entry.dirName?]

theorem dirNames_cons_dir (name : String) (files : List FileEntry)
    (rest : List Entry) :
    dirNames (Entry.dir name files :: rest) = name :: dirNames rest := by
  simp [dirNames, Entry.dirName?]

theorem collect_name_to_id :
    ∀ (entries : List Entry) (s : TrainState),
      (∀ n ∈ dirNames entries, dictGet s.name_to_id n = none) →
      (dirNames entries).Nodup →
      (collect entries s).name_to_id =
        s.name_to_id ++ (dirNames entries).zip
          (List.range' s.current_id (dirNames entries).length) ∧
      (collect entries s).current_id =
        s.current_id + (dirNames entries).length := by
  intro entries
  induction entries with
  | nil =>
    intro s _ _
    simp [collect, dirNames]
  | cons e rest ih =>
    intro s hkeys hnodup
    cases e with
    | file n =>
      rw [collect_cons_file, dirNames_cons_file]
      rw [dirNames_cons_file] at hkeys hnodup
      exact ih s hkeys hnodup
    | dir name files =>
      rw [collect_cons_dir, dirNames_cons_dir]
      rw [dirNames_cons_dir] at hkeys hnodup
      have hname : dictGet s.name_to_id name =
          none := hkeys name (List.mem_cons_self _ _)
      rw [assignId_of_none s name hname]
      obtain ⟨imgs, hfold⟩ := foldl_addSample_spec s.current_id files
        { s with name_to_id := s.name_to_id ++ [(name, s.current_id)],
                 current_id := s.current_id + 1 }
      dsimp only at hfold
      rw [hfold]
      have hnotin : name ∉ dirNames rest := (List.nodup_cons.mp hnodup).1
      have hkeys' : ∀ n ∈ dirNames rest,
          dictGet (s.name_to_id ++ [(name, s.current_id)]) n = none := by
        intro n hn
        rw [dictGet_append, hkeys n (List.mem_cons_of_mem _ hn)]
        have hne : name ≠ n := fun h => hnotin (h ▸ hn)
        simp [dictGet, hne]
      have hrec := ih { faces := s.faces ++ imgs,
                        ids := s.ids ++ List.replicate imgs.length s.current_id,
                        name_to_id := s.name_to_id ++ [(name, s.current_id)],
                        current_id := s.current_id + 1 }
        hkeys' (List.nodup_cons.mp hnodup).2
      refine ⟨?_, ?_⟩
      · rw [hrec.1]
        simp only [List.length_cons, List.range'_succ, List.zip_cons_cons,
          List.append_assoc, List.singleton_append]
      · rw [hrec.2]
        simp only [List.length_cons]
        omega

/-- C4: labels assigned by `train_model` are dense, zero-based integers given
out in identity-discovery order, and the resulting mapping pairs the
partition names, in discovery order, bijectively with the label set
`{0, ..., n-1}`. -/
theorem train_labels_dense_bijective (entries : List Entry)
    (hnodup : (dirNames entries).Nodup) :
    (collect entries initState).name_to_id =
      (dirNames entries).zip (List.range (dirNames entries).length) ∧
    ((collect entries initState).name_to_id).map Prod.fst = dirNames entries ∧
    ((collect entries initState).name_to_id).map Prod.snd =
      List.range (dirNames entries).length := by
  have h := (collect_name_to_id entries initState
    (fun n _ => rfl) hnodup).1
  have hzip : (collect entries initState).name_to_id =
      (dirNames entries).zip (List.range (dirNames entries).length) := by
    rw [h, List.range_eq_range']
    rfl
  refine ⟨hzip, ?_, ?_⟩
  · rw [hzip]
    exact List.map_fst_zip _ _ (by simp)
  · rw [hzip]
    exact List.map_snd_zip _ _ (by simp)

/-- C4 witness: a listing with partitions alice and bob (and one skipped
non-directory entry) yields the mapping alice ↦ 0, bob ↦ 1. -/
theorem train_labels_dense_bijective_witness :
    (dirNames [Entry.dir ("alice") [], Entry.file ("x"),
        Entry.dir ("bob") []]).Nodup ∧
    (collect [Entry.dir ("alice") [], Entry.file ("x"), Entry.dir ("bob") []]
        initState).name_to_id = [("alice", 0), ("bob", 1)] := by
  refine ⟨by decide, ?_⟩
  rw [(train_labels_dense_bijective [Entry.dir ("alice") [], Entry.file ("x"),
    Entry.dir ("bob") []] (by decide)).1]
  rfl

theorem train_model_some {Model : Type} (entries : List Entry)
    (a : List Image → List Nat → Option Model) :
    train_model (some entries) a =
      (if (collect entries initState).faces = [] then TrainResult.noFaces
       else
         match a (collect entries initState).faces
             (collect entries initState).ids with
         | none => TrainResult.adapterError
         | some m =>
             TrainResult.success m (collect entries initState).name_to_id) := rfl

/-- C2: a run of `train_model` writes both artifacts or neither; on the three
failure paths (dataset directory absent, zero valid samples, the adapter's
train call raising) nothing is written. -/
theorem train_all_or_nothing {Model : Type} (dataset : Option (List Entry))
    (adapterTrain : List Image → List Nat → Option Model) :
    ((writtenModel (train_model dataset adapterTrain)).isSome ↔
      (writtenMapping (train_model dataset adapterTrain)).isSome) ∧
    (dataset = none →
      train_model dataset adapterTrain = TrainResult.noDataset) ∧
    (∀ entries, dataset = some entries →
      (collect entries initState).faces = [] →
      train_model dataset adapterTrain = TrainResult.noFaces) ∧
    (∀ entries, dataset = some entries →
      adapterTrain (collect entries initState).faces
        (collect entries initState).ids = none →
      writtenModel (train_model dataset adapterTrain) = none ∧
      writtenMapping (train_model dataset adapterTrain) = none) := by
  rcases dataset with _ | entries
  · refine ⟨by simp [train_model, writtenModel, writtenMapping],
      fun _ => rfl, ?_, ?_⟩
    · intro e he
      exact Option.noConfusion he
    · intro e he
      exact Option.noConfusion he
  · rw [train_model_some]
    by_cases hf : (collect entries initState).faces = []
    · rw [if_pos hf]
      refine ⟨by simp [writtenModel, writtenMapping], ?_, ?_, ?_⟩
      · intro h
        exact Option.noConfusion h
      · intro e he hfe
        rfl
      · intro e he ha
        exact ⟨rfl, rfl⟩
    · rw [if_neg hf]
      rcases ha : adapterTrain (collect entries initState).faces
          (collect entries initState).ids with _ | m
      · simp only [ha]
        refine ⟨by simp [writtenModel, writtenMapping], ?_, ?_, ?_⟩
        · intro h
          exact Option.noConfusion h
        · intro e he hfe
          cases he
          exact absurd hfe hf
        · intro e he _
          exact ⟨rfl, rfl⟩
      · simp only [ha]
        refine ⟨by simp [writtenModel, writtenMapping], ?_, ?_, ?_⟩
        · intro h
          exact Option.noConfusion h
        · intro e he hfe
          cases he
          exact absurd hfe hf
        · intro e he ha2
          cases he
          rw [ha] at ha2
          exact absurd ha2 (by simp)

/-- C2 witness: a dataset whose adapter training call fails writes neither
artifact. -/
theorem train_all_or_nothing_witness :
    writtenModel (train_model
        (some [Entry.dir ("a") [{ name := "i.jpg", content := some 3 }]])
        (fun (_ : List Image) (_ : List Nat) => (none : Option Nat))) = none ∧
    writtenMapping (train_model
        (some [Entry.dir ("a") [{ name := "i.jpg", content := some 3 }]])
        (fun (_ : List Image) (_ : List Nat) => (none : Option Nat))) = none :=
  (train_all_or_nothing
    (some [Entry.dir ("a") [{ name := "i.jpg", content := some 3 }]])
    (fun _ _ => (none : Option Nat))).2.2.2
    [Entry.dir ("a") [{ name := "i.jpg", content := some 3 }]] rfl rfl

theorem train_model_success_mapping {Model : Type} (entries : List Entry)
    (a : List Image → List Nat → Option Model) (m : Model)
    (mp : List (String × Nat))
    (h : train_model (some entries) a = TrainResult.success m mp) :
    mp = (collect entries initState).name_to_id := by
  rw [train_model_some] at h
  by_cases hf : (collect entries initState).faces = []
  · rw [if_pos hf] at h
    exact TrainResult.noConfusion h
  · rw [if_neg hf] at h
    rcases ha : a (collect entries initState).faces
        (collect entries initState).ids with _ | m2
    · simp only [ha] at h
      exact TrainResult.noConfusion h
    · simp only [ha, TrainResult.success.injEq] at h
      exact h.2.symm

/-- C6: label assignment is deterministic: two runs of `train_model` over the
same dataset snapshot that both succeed persist the same name-to-id
mapping, independently of the classification adapter. -/
theorem train_label_assignment_deterministic {MA MB : Type}
    (dataset : Option (List Entry))
    (adapterA : List Image → List Nat → Option MA)
    (adapterB : List Image → List Nat → Option MB)
    (mA : MA) (mpA : List (String × Nat)) (mB : MB)
    (mpB : List (String × Nat))
    (hA : train_model dataset adapterA = TrainResult.success mA mpA)
    (hB : train_model dataset adapterB = TrainResult.success mB mpB) :
    mpA = mpB := by
  rcases dataset with _ | entries
  · exact TrainResult.noConfusion hA
  · rw [train_model_success_mapping entries adapterA mA mpA hA,
      train_model_success_mapping entries adapterB mB mpB hB]

/-- C6 witness: two successful runs on the same one-partition snapshot, with
different adapters, both persist the mapping a ↦ 0. -/
theorem train_label_assignment_deterministic_witness :
    train_model (some [Entry.dir ("a") [{ name := "i.jpg", content := some 3 }]])
        (fun (_ : List Image) (_ : List Nat) => some 0) =
      TrainResult.success 0 [("a", 0)] ∧
    train_model (some [Entry.dir ("a") [{ name := "i.jpg", content := some 3 }]])
        (fun (_ : List Image) (_ : List Nat) => some true) =
      TrainResult.success true [("a", 0)] ∧
    [(("a" : String), 0)] = [(("a" : String), 0)] :=
  ⟨rfl, rfl,
    train_label_assignment_deterministic
      (some [Entry.dir ("a") [{ name := "i.jpg", content := some 3 }]])
      (fun _ _ => some 0) (fun _ _ => some true) 0 [("a", 0)] true [("a", 0)]
      rfl rfl⟩

theorem collect_ids_have_entry :
    ∀ (entries : List Entry) (s : TrainState),
      (∀ lab ∈ s.ids, ∃ name, (name, lab) ∈ s.name_to_id) →
      ∀ lab ∈ (collect entries s).ids,
        ∃ name, (name, lab) ∈ (collect entries s).name_to_id := by
  intro entries
  induction entries with
  | nil => intro s hinv; exact hinv
  | cons e rest ih =>
    intro s hinv
    cases e with
    | file n =>
      rw [collect_cons_file]
      exact ih s hinv
    | dir name files =>
      rw [collect_cons_dir]
      rcases hd : dictGet s.name_to_id name with _ | v
      · rw [assignId_of_none s name hd]
        obtain ⟨imgs, hfold⟩ := foldl_addSample_spec s.current_id files
          { s with name_to_id := s.name_to_id ++ [(name, s.current_id)],
                   current_id := s.current_id + 1 }
        dsimp only at hfold
        rw [hfold]
        apply ih
        intro lab hlab
        dsimp only at hlab ⊢
        rcases List.mem_append.mp hlab with hl | hl
        · obtain ⟨n0, hn0⟩ := hinv lab hl
          exact ⟨n0, List.mem_append_left _ hn0⟩
        · have hlv : lab = s.current_id := List.eq_of_mem_replicate hl
          subst hlv
          exact ⟨name, List.mem_append_right _ (by simp)⟩
      · rw [assignId_of_some s name v hd]
        obtain ⟨imgs, hfold⟩ := foldl_addSample_spec v files s
        rw [hfold]
        apply ih
        intro lab hlab
        dsimp only at hlab ⊢
        rcases List.mem_append.mp hlab with hl | hl
        · exact hinv lab hl
        · have hlv : lab = v := List.eq_of_mem_replicate hl
          subst hlv
          exact ⟨name, dictGet_mem _ _ _ hd⟩

/-- C10: every label in the trained id list has an entry in the persisted
mapping (so the Unknown fallback is unreachable for trained labels when the
artifacts are loaded as a pair); conversely, a partition with no valid image
files still receives a mapping entry while contributing no sample. -/
theorem trained_labels_have_registry_entries :
    (∀ (Model : Type) (entries : List Entry)
        (a : List Image → List Nat → Option Model) (m : Model)
        (mp : List (String × Nat)),
      train_model (some entries) a = TrainResult.success m mp →
      ∀ lab ∈ (collect entries initState).ids, ∃ name, (name, lab) ∈ mp) ∧
    ((collect [Entry.dir ("empty") [],
        Entry.dir ("full") [{ name := "img_1.jpg", content := some 7 }]]
        initState).name_to_id = [("empty", 0), ("full", 1)] ∧
     (collect [Entry.dir ("empty") [],
        Entry.dir ("full") [{ name := "img_1.jpg", content := some 7 }]]
        initState).ids = [1]) := by
  constructor
  · intro Model entries a m mp h lab hlab
    rw [train_model_success_mapping entries a m mp h]
    exact collect_ids_have_entry entries initState
      (fun lab2 hl => nomatch hl) lab hlab
  · exact ⟨rfl, rfl⟩

/-- C10 witness: in a successful run over one partition, the single trained
label 0 has a mapping entry. -/
theorem trained_labels_have_registry_entries_witness :
    ∃ name, (name, 0) ∈ [(("a" : String), 0)] :=
  trained_labels_have_registry_entries.1 Nat
    [Entry.dir ("a") [{ name := "i.jpg", content := some 3 }]]
    (fun _ _ => some 0) 0 [("a", 0)] rfl 0 (by decide)

theorem captureLoop_exact (target : Nat) :
    ∀ (frames : List (Option (List Face))) (count : Nat),
      (∀ fr ∈ frames, ∃ f : Face, fr = some [f] ∧ 0 < f.size) →
      count ≤ target → target ≤ count + frames.length →
      captureLoop target frames count = target := by
  intro frames
  induction frames with
  | nil =>
    intro count _ hle hge
    simp only [List.length_nil, Nat.add_zero] at hge
    rw [captureLoop]
    omega
  | cons fr rest ih =>
    intro count hframes hle hge
    by_cases hlt : count < target
    · obtain ⟨f, hfr, hsz⟩ := hframes fr (List.mem_cons_self _ _)
      subst hfr
      rw [captureLoop, if_pos hlt]
      have hpf : processFrameFaces count [f] = count + 1 := by
        simp [processFrameFaces, hsz]
      rw [hpf]
      refine ih (count + 1)
        (fun fr2 hfr2 => hframes fr2 (List.mem_cons_of_mem _ hfr2))
        (by omega) ?_
      simp only [List.length_cons] at hge
      omega
    · rcases fr with _ | faces
      · rw [captureLoop, if_neg hlt]
        omega
      · rw [captureLoop, if_neg hlt]
        omega

/-- C7: with a non-empty identity name, a working cascade and camera, and a
frame stream supplying at least `IMAGES_TO_CAPTURE` frames each containing
exactly one detectable non-empty face, `create_dataset` creates exactly one
partition and stores exactly `IMAGES_TO_CAPTURE` samples. -/
theorem enroll_reaches_target (user_name : String) (hname : ¬ user_name = "")
    (frames : List (Option (List Face)))
    (hframes : ∀ fr ∈ frames, ∃ f : Face, fr = some [f] ∧ 0 < f.size)
    (hlen : IMAGES_TO_CAPTURE ≤ frames.length) :
    create_dataset user_name true true frames =
      { partitionsCreated := [user_name], cameraOpened := true,
        samplesStored := IMAGES_TO_CAPTURE } := by
  unfold create_dataset
  rw [if_neg hname, if_neg (fun h => Bool.noConfusion h),
    if_neg (fun h => Bool.noConfusion h)]
  rw [captureLoop_exact IMAGES_TO_CAPTURE frames 0 hframes (Nat.zero_le _)
    (by simpa using hlen)]

/-- C7 witness: 50 one-face frames enroll alice with exactly 50 samples. -/
theorem enroll_reaches_target_witness :
    create_dataset ("alice") true true (List.replicate 50 (some [⟨1⟩])) =
      { partitionsCreated := ["alice"], cameraOpened := true,
        samplesStored := IMAGES_TO_CAPTURE } :=
  enroll_reaches_target ("alice") (by decide) (List.replicate 50 (some [⟨1⟩]))
    (fun fr hfr => ⟨⟨1⟩, List.eq_of_mem_replicate hfr, by decide⟩)
    (by decide)

/-- C8: `create_dataset` with an empty identity name fails fast: no partition
is created, the camera is never opened, and no sample is stored. -/
theorem enroll_empty_name_no_side_effects (cascadeOk cameraOk : Bool)
    (frames : List (Option (List Face))) :
    create_dataset "" cascadeOk cameraOk frames =
      { partitionsCreated := [], cameraOpened := false,
        samplesStored := 0 } := rfl

/-- C9: the target is only checked between frames, so a frame with several
detected faces can push the stored sample count strictly past
`IMAGES_TO_CAPTURE`: 17 frames of 3 faces store 51 > 50 samples. -/
theorem enroll_can_exceed_target :
    (create_dataset ("user") true true
        (List.replicate 17 (some (List.replicate 3 ⟨1⟩)))).samplesStored = 51 ∧
    IMAGES_TO_CAPTURE < 51 := by
  constructor
  · rfl
  · decide

end FR
